import Mathlib

/-!
Shallow embedding of the cpp-uuidv7 library (include/uuidv7/uuidv7.hpp and
src/generator.cpp).  Identifiers are modelled as lists of 16 bytes, each byte
a `Nat` below 256; machine bit operations are written with `/`, `%`, `*` on
`Nat` (`x >> k` is `x / 2^k`, `x & (2^k - 1)` is `x % 2^k`, and `|` of
disjoint bit ranges is `+`).
-/

namespace UUIDv7

/-- Hex digit table, from `HEX_CHARS[] = "0123456789abcdef"` in `to_string`. -/
def HEX_CHARS : List Char := "0123456789abcdef".toList

/-- Table lookup `HEX_CHARS[n]`; the default is never reached (indices are < 16). -/
def hexChar (n : Nat) : Char := HEX_CHARS.getD n 'x'

/-- The lambda `hex_to_int` in `uuidv7::parse_inner`: hex digit value, `0xFF` on
a non-hex character. -/
def hex_to_int (c : Char) : Nat :=
  if '0' ≤ c ∧ c ≤ '9' then c.toNat - '0'.toNat
  else if 'a' ≤ c ∧ c ≤ 'f' then c.toNat - 'a'.toNat + 10
  else if 'A' ≤ c ∧ c ≤ 'F' then c.toNat - 'A'.toNat + 10
  else 0xFF

/-- Constant `uuidv7::MAX_RAND_A`. -/
def MAX_RAND_A : Nat := 0x0FFF

/-- Constant `uuidv7::MAX_RAND_B`. -/
def MAX_RAND_B : Nat := 0x3FFFFFFFFFFFFFFF

/-- Body of the loop in `uuidv7::to_string`: for each byte emit (optionally) a
hyphen when the byte index is 4, 6, 8 or 10, then the two hex digits
`HEX_CHARS[(byte >> 4) & 0x0F]`, `HEX_CHARS[byte & 0x0F]`. -/
def to_string_go (include_hyphens : Bool) : List Nat → Nat → List Char
  | [], _ => []
  | b :: rest, i =>
    (if include_hyphens ∧ (i = 4 ∨ i = 6 ∨ i = 8 ∨ i = 10) then ['-'] else [])
      ++ hexChar (b / 16 % 16) :: hexChar (b % 16) :: to_string_go include_hyphens rest (i + 1)

/-- `uuidv7::to_string(include_hyphens)`, rendering the 16 bytes as hex. -/
def to_string (bytes : List Nat) (include_hyphens : Bool) : List Char :=
  to_string_go include_hyphens bytes 0

/-- The `uuidv7::ParseResult` enumeration. -/
inductive ParseResult where
  | Success (bytes : List Nat)
  | InvalidVersion
  | InvalidVariant
  | InvalidFormat
deriving DecidableEq

/-- The decoding loop of `uuidv7::parse_inner` (`for (int i = 0; i < 16; i++)`),
with the remaining iteration count as first argument and the character cursor
`c` as second; skips the cursor over hyphen positions 8, 13, 18, 23 when
hyphens are present, reads two hex digits, fails on a non-hex character. -/
def parseLoop (str : List Char) (include_hyphens : Bool) :
    Nat → Nat → List Nat → Option (List Nat)
  | 0, _, acc => some acc
  | i + 1, c, acc =>
    let c' := if include_hyphens ∧ (c = 8 ∨ c = 13 ∨ c = 18 ∨ c = 23) then c + 1 else c
    let h1 := hex_to_int (str.getD c' 'x')
    let h2 := hex_to_int (str.getD (c' + 1) 'x')
    if h1 = 0xFF ∨ h2 = 0xFF then none
    else parseLoop str include_hyphens i (c' + 2) (acc ++ [h1 * 16 + h2])

/-- Second half of `uuidv7::parse_inner`, after the length / hyphen frame has
fixed `include_hyphens`, `version_index` and `variant_index`: check the
version character is `'7'`, check the variant character is hex with top two
bits `0b10` (`(var_char & 0b1100) >> 2 == VARIANT`), then run the hex loop. -/
def parseTail (str : List Char) (include_hyphens : Bool)
    (version_index variant_index : Nat) : ParseResult :=
  if str.getD version_index 'x' ≠ '7' then ParseResult.InvalidVersion
  else
    let var_char := hex_to_int (str.getD variant_index 'x')
    if var_char = 0xFF then ParseResult.InvalidFormat
    else if var_char / 4 % 4 ≠ 2 then ParseResult.InvalidVariant
    else
      match parseLoop str include_hyphens 16 0 [] with
      | none => ParseResult.InvalidFormat
      | some bytes => ParseResult.Success bytes

/-- `uuidv7::parse_inner`: length 36 requires hyphens at 8, 13, 18, 23 and uses
version index 14 / variant index 19; length 32 uses 12 / 16; any other length
is a format error. -/
def parse_inner (str : List Char) : ParseResult :=
  if str.length = 36 then
    if str.getD 8 'x' ≠ '-' ∨ str.getD 13 'x' ≠ '-'
        ∨ str.getD 18 'x' ≠ '-' ∨ str.getD 23 'x' ≠ '-' then
      ParseResult.InvalidFormat
    else parseTail str true 14 19
  else if str.length = 32 then parseTail str false 12 16
  else ParseResult.InvalidFormat

/-- `uuidv7::parse`: dispatch on `parse_inner`, throwing `invalid_format_error`
with the message the source uses for each failure kind. -/
def parse (str : List Char) : Except String (List Nat) :=
  match parse_inner str with
  | ParseResult.Success b => Except.ok b
  | ParseResult.InvalidVersion => Except.error "Invalid UUID Version 7 version"
  | ParseResult.InvalidVariant => Except.error "Invalid UUID Version 7 variant"
  | ParseResult.InvalidFormat => Except.error "Invalid UUID Version 7 string format"

/-- `uuidv7::try_parse`: `some` exactly when `parse_inner` succeeds. -/
def try_parse (str : List Char) : Option (List Nat) :=
  match parse_inner str with
  | ParseResult.Success b => some b
  | _ => none

/-- `uuidv7::from_bytes(const std::array<uint8_t,16>&)`: validates
`(bytes[6] >> 4) & 0b1111 == VERSION` and `(bytes[8] >> 6) & 0b11 == VARIANT`,
then wraps the bytes unchanged. -/
def from_bytes (bytes : List Nat) : Except String (List Nat) :=
  if bytes.getD 6 0 / 16 % 16 ≠ 7 then Except.error "Invalid UUID Version 7 version"
  else if bytes.getD 8 0 / 64 % 4 ≠ 2 then Except.error "Invalid UUID Version 7 variant"
  else Except.ok bytes

/-- `uuidv7::from_bytes(const uint8_t*)`: a null pointer (modelled `none`) is a
format error, otherwise the 16 bytes are copied and checked as above. -/
def from_bytes_ptr (bytes : Option (List Nat)) : Except String (List Nat) :=
  match bytes with
  | none => Except.error "Input pointer is null"
  | some b => from_bytes b

/-- The private constructor `uuidv7::uuidv7(uint64_t, uint16_t, uint64_t)`.
The two `assert` statements of the source are modelled as returning `none`
when they fire; note the source has no assertion on `unix_ts_ms`. -/
def uuidv7_mk (unix_ts_ms rand_a rand_b : Nat) : Option (List Nat) :=
  if rand_a ≤ MAX_RAND_A ∧ rand_b ≤ MAX_RAND_B then
    some [unix_ts_ms / 2 ^ 40 % 256, unix_ts_ms / 2 ^ 32 % 256,
          unix_ts_ms / 2 ^ 24 % 256, unix_ts_ms / 2 ^ 16 % 256,
          unix_ts_ms / 2 ^ 8 % 256, unix_ts_ms % 256,
          rand_a / 2 ^ 8 % 16 + 7 * 16, rand_a % 256,
          rand_b / 2 ^ 56 % 64 + 2 * 64, rand_b / 2 ^ 48 % 256,
          rand_b / 2 ^ 40 % 256, rand_b / 2 ^ 32 % 256, rand_b / 2 ^ 24 % 256,
          rand_b / 2 ^ 16 % 256, rand_b / 2 ^ 8 % 256, rand_b % 256]
  else none

/-- `std::memcmp(a, b, n) < 0` / `std::array::operator<`: strict unsigned
byte-wise lexicographic comparison. -/
def bytesLt : List Nat → List Nat → Bool
  | a :: as, b :: bs =>
    if a < b then true else if a = b then bytesLt as bs else false
  | _, _ => false

/-- The `millis_bytes` loop in `uuidv7_generator::generate`: big-endian 6-byte
encoding of the millisecond count (truncated to 48 bits). -/
def nowBytes (millis : Nat) : List Nat :=
  [millis / 2 ^ 40 % 256, millis / 2 ^ 32 % 256, millis / 2 ^ 24 % 256,
   millis / 2 ^ 16 % 256, millis / 2 ^ 8 % 256, millis % 256]

/-- Result of the in-place counter increment, carrying the resulting stored
array in both the success and the overflow case (on overflow the source throws
after having already zeroed bytes 9–15, reset byte 8's low six bits and
cleared byte 7). -/
inductive IncResult where
  | ok (st : List Nat)
  | overflow (st : List Nat)
deriving DecidableEq

/-- The same-or-regressed-time branch of `uuidv7_generator::generate`: the
`while (target > 8)` walk over bytes 15 down to 9, then the chained carry into
byte 8's low six bits, byte 7 and byte 6's low nibble; `throw` when the whole
74-bit tail was all-ones. -/
def incTail : List Nat → IncResult
  | [b0, b1, b2, b3, b4, b5, b6, b7, b8, b9, b10, b11, b12, b13, b14, b15] =>
    if b15 < 0xFF then
      IncResult.ok [b0, b1, b2, b3, b4, b5, b6, b7, b8, b9, b10, b11, b12, b13, b14, b15 + 1]
    else if b14 < 0xFF then
      IncResult.ok [b0, b1, b2, b3, b4, b5, b6, b7, b8, b9, b10, b11, b12, b13, b14 + 1, 0]
    else if b13 < 0xFF then
      IncResult.ok [b0, b1, b2, b3, b4, b5, b6, b7, b8, b9, b10, b11, b12, b13 + 1, 0, 0]
    else if b12 < 0xFF then
      IncResult.ok [b0, b1, b2, b3, b4, b5, b6, b7, b8, b9, b10, b11, b12 + 1, 0, 0, 0]
    else if b11 < 0xFF then
      IncResult.ok [b0, b1, b2, b3, b4, b5, b6, b7, b8, b9, b10, b11 + 1, 0, 0, 0, 0]
    else if b10 < 0xFF then
      IncResult.ok [b0, b1, b2, b3, b4, b5, b6, b7, b8, b9, b10 + 1, 0, 0, 0, 0, 0]
    else if b9 < 0xFF then
      IncResult.ok [b0, b1, b2, b3, b4, b5, b6, b7, b8, b9 + 1, 0, 0, 0, 0, 0, 0]
    else if b8 % 64 < 0x3F then
      IncResult.ok [b0, b1, b2, b3, b4, b5, b6, b7, b8 + 1, 0, 0, 0, 0, 0, 0, 0]
    else if b7 < 0xFF then
      IncResult.ok [b0, b1, b2, b3, b4, b5, b6, b7 + 1, 2 * 64, 0, 0, 0, 0, 0, 0, 0]
    else if b6 % 16 < 0x0F then
      IncResult.ok [b0, b1, b2, b3, b4, b5, b6 + 1, 0, 2 * 64, 0, 0, 0, 0, 0, 0, 0]
    else
      IncResult.overflow [b0, b1, b2, b3, b4, b5, b6, 0, 2 * 64, 0, 0, 0, 0, 0, 0, 0]
  | st => IncResult.overflow st

/-- Outcome of one `generate()` call: the returned identifier on success, or
the thrown error; each constructor carries the generator's stored
`last_generated_` as it stands after the call (on success the returned value
is that stored value). -/
inductive GenResult where
  | ok (st : List Nat)
  | overflowErr (st : List Nat)
  | randErr (st : List Nat)
deriving DecidableEq

/-- `uuidv7_generator::generate`, with the wall clock supplied as `millis` and
the random source as `rand` (`none` models a throwing `generate_random()`).
Time-advanced branch: overwrite bytes 0–5 with the clock, bytes 6–15 with the
ten random bytes, then force the version nibble
(`data[6] = ((data[6] >> 4) & 0x0F) | (VERSION << 4)`) and the variant bits
(`data[8] = ((data[8] >> 2) & 0x3F) | (VARIANT << 6)`).  Otherwise run the
counter increment. -/
def generate (last : List Nat) (millis : Nat) (rand : Option (List Nat)) : GenResult :=
  if bytesLt (last.take 6) (nowBytes millis) then
    match rand with
    | none => GenResult.randErr last
    | some r =>
      GenResult.ok (nowBytes millis ++
        [r.getD 0 0 / 16 % 16 + 7 * 16, r.getD 1 0,
         r.getD 2 0 / 4 % 64 + 2 * 64, r.getD 3 0, r.getD 4 0, r.getD 5 0,
         r.getD 6 0, r.getD 7 0, r.getD 8 0, r.getD 9 0])
  else
    match incTail last with
    | IncResult.ok st => GenResult.ok st
    | IncResult.overflow st => GenResult.overflowErr st

/-- Iterate `generate` over a list of (clock, random-source) inputs, collecting
the returned identifiers; `none` as soon as one call throws. -/
def runGen (last : List Nat) : List (Nat × Option (List Nat)) → Option (List (List Nat))
  | [] => some []
  | (ms, r) :: calls =>
    match generate last ms r with
    | GenResult.ok st =>
      match runGen st calls with
      | some outs => some (st :: outs)
      | none => none
    | _ => none

/-- Well-formed identifier bytes: 16 of them, each below 256 (the `uint8_t`
invariant of `std::array<uint8_t, 16>`). -/
def wf (st : List Nat) : Prop := st.length = 16 ∧ ∀ b ∈ st, b < 256

instance (st : List Nat) : Decidable (wf st) := by
  unfold wf; infer_instance

/-- Character indices scanned by the hex loop in the 36-character form. -/
def hexPositions36 : List Nat :=
  [0, 1, 2, 3, 4, 5, 6, 7, 9, 10, 11, 12, 14, 15, 16, 17,
   19, 20, 21, 22, 24, 25, 26, 27, 28, 29, 30, 31, 32, 33, 34, 35]

/-- Character indices scanned by the hex loop in the 32-character form. -/
def hexPositions32 : List Nat :=
  [0, 1, 2, 3, 4, 5, 6, 7, 8, 9, 10, 11, 12, 13, 14, 15,
   16, 17, 18, 19, 20, 21, 22, 23, 24, 25, 26, 27, 28, 29, 30, 31]

/-- Big-endian numeric value of a byte list (used to relate byte-wise
lexicographic ordering to numeric ordering). -/
def valBE : List Nat → Nat
  | [] => 0
  | b :: rest => b * 256 ^ rest.length + valBE rest

/-- The 48-bit timestamp field: bytes 0–5 (§3 layout). -/
def ts_field (st : List Nat) : List Nat := st.take 6

/-- The version nibble: high nibble of byte 6 (§3 layout). -/
def version_field (st : List Nat) : Nat := st.getD 6 0 / 16 % 16

/-- The variant bits: top two bits of byte 8 (§3 layout). -/
def variant_field (st : List Nat) : Nat := st.getD 8 0 / 64 % 4

/-- The 12-bit `rand_a` field: low nibble of byte 6 and byte 7 (§3 layout). -/
def rand_a_field (st : List Nat) : Nat := st.getD 6 0 % 16 * 256 + st.getD 7 0

/-- The 62-bit `rand_b` field: low six bits of byte 8 and bytes 9–15 (§3 layout). -/
def rand_b_field (st : List Nat) : Nat :=
  st.getD 8 0 % 64 * 2 ^ 56 + st.getD 9 0 * 2 ^ 48 + st.getD 10 0 * 2 ^ 40 +
    st.getD 11 0 * 2 ^ 32 + st.getD 12 0 * 2 ^ 24 + st.getD 13 0 * 2 ^ 16 +
    st.getD 14 0 * 2 ^ 8 + st.getD 15 0

/-- The 74-bit tail counter: `rand_a` concatenated with `rand_b` (§4.2). -/
def counter74 (st : List Nat) : Nat := rand_a_field st * 2 ^ 62 + rand_b_field st

end UUIDv7

namespace UUIDv7

/-- Equality of modelled call results (`Except`) is decidable, so concrete
scenarios can be settled by evaluation. -/
instance {ε α : Type} [DecidableEq ε] [DecidableEq α] : DecidableEq (Except ε α) := fun a b =>
  match a, b with
  | Except.ok x, Except.ok y =>
    if h : x = y then isTrue (by rw [h])
    else isFalse (by intro hc; injection hc; contradiction)
  | Except.error x, Except.error y =>
    if h : x = y then isTrue (by rw [h])
    else isFalse (by intro hc; injection hc; contradiction)
  | Except.ok _, Except.error _ => isFalse (by intro hc; injection hc)
  | Except.error _, Except.ok _ => isFalse (by intro hc; injection hc)

/-! ### Helper lemmas about hex encoding -/

/-- Decoding inverts the hex digit table on digit values. -/
theorem hexRound : ∀ n < 16, hex_to_int (hexChar n) = n := by decide

/-- Decoding the low-nibble character of a byte. -/
theorem hexRoundLo (n : Nat) : hex_to_int (hexChar (n % 16)) = n % 16 :=
  hexRound _ (Nat.mod_lt _ (by omega))

/-- Decoding the high-nibble character of a byte. -/
theorem hexRoundHi (n : Nat) (h : n < 256) : hex_to_int (hexChar (n / 16 % 16)) = n / 16 := by
  have e : n / 16 % 16 = n / 16 := by omega
  rw [e]
  exact hexRound _ (by omega)

/-- Reassembling a byte from its two nibbles. -/
theorem hexRecon (n : Nat) (h : n < 256) : n / 16 * 16 + n % 16 = n := by omega

/-- A low nibble is a hex digit value, never the sentinel 255. -/
theorem hexNeLo (n : Nat) : ¬ (n % 16 = 255) := by omega

/-- A high nibble of a byte is a hex digit value, never the sentinel 255. -/
theorem hexNeHi (n : Nat) (h : n < 256) : ¬ (n / 16 = 255) := by omega

/-- The table entry for 7 is the character the version check expects. -/
theorem hexChar7 : hexChar 7 = '7' := rfl

/-- Decoding the version character. -/
theorem hexVal7 : hex_to_int '7' = 7 := by decide

end UUIDv7

namespace UUIDv7

/-- Claim C5: for every validly constructed identifier (16 bytes with version
nibble 7 and variant bits 0b10), parsing the hyphenated and the bare
`to_string` rendering succeeds and returns the identifier unchanged; and the
two concrete strings of scenario B parse to the same value, whose two
renderings reproduce the original strings exactly. -/
theorem parse_to_string_roundtrip
    (b0 b1 b2 b3 b4 b5 b6 b7 b8 b9 b10 b11 b12 b13 b14 b15 : Nat)
    (h0 : b0 < 256) (h1 : b1 < 256) (h2 : b2 < 256) (h3 : b3 < 256)
    (h4 : b4 < 256) (h5 : b5 < 256) (h6 : b6 < 256) (h7 : b7 < 256)
    (h8 : b8 < 256) (h9 : b9 < 256) (h10 : b10 < 256) (h11 : b11 < 256)
    (h12 : b12 < 256) (h13 : b13 < 256) (h14 : b14 < 256) (h15 : b15 < 256)
    (hv : b6 / 16 = 7) (hr : b8 / 64 = 2) :
    parse (to_string [b0,b1,b2,b3,b4,b5,b6,b7,b8,b9,b10,b11,b12,b13,b14,b15] true)
        = Except.ok [b0,b1,b2,b3,b4,b5,b6,b7,b8,b9,b10,b11,b12,b13,b14,b15]
    ∧ parse (to_string [b0,b1,b2,b3,b4,b5,b6,b7,b8,b9,b10,b11,b12,b13,b14,b15] false)
        = Except.ok [b0,b1,b2,b3,b4,b5,b6,b7,b8,b9,b10,b11,b12,b13,b14,b15]
    ∧ parse "01965347-e56d-7571-a1bb-6120dba3a645".toList
        = Except.ok [0x01,0x96,0x53,0x47,0xe5,0x6d,0x75,0x71,0xa1,0xbb,0x61,0x20,0xdb,0xa3,0xa6,0x45]
    ∧ parse "01965347e56d7571a1bb6120dba3a645".toList
        = Except.ok [0x01,0x96,0x53,0x47,0xe5,0x6d,0x75,0x71,0xa1,0xbb,0x61,0x20,0xdb,0xa3,0xa6,0x45]
    ∧ to_string [0x01,0x96,0x53,0x47,0xe5,0x6d,0x75,0x71,0xa1,0xbb,0x61,0x20,0xdb,0xa3,0xa6,0x45] true
        = "01965347-e56d-7571-a1bb-6120dba3a645".toList
    ∧ to_string [0x01,0x96,0x53,0x47,0xe5,0x6d,0x75,0x71,0xa1,0xbb,0x61,0x20,0xdb,0xa3,0xa6,0x45] false
        = "01965347e56d7571a1bb6120dba3a645".toList
    ∧ ("01965347-e56d-7571-a1bb-6120dba3a645".toList.length = 36
        ∧ "01965347e56d7571a1bb6120dba3a645".toList.length = 32) := by
  have hv' : b6 / 16 % 16 = 7 := by omega
  have hb6 : 7 * 16 + b6 % 16 = b6 := by omega
  have hvc : ¬ (b8 / 16 = 255) := by omega
  have hvb : b8 / 16 / 4 % 4 = 2 := by omega
  refine ⟨?_, ?_, by decide, by decide, by decide, by decide, by decide⟩
  · simp only [to_string, to_string_go, parse, parse_inner, parseTail, parseLoop]
    simp [List.getD, hv', hexChar7, hexVal7, hexRoundLo,
      hexRoundHi _ h0, hexRoundHi _ h1, hexRoundHi _ h2, hexRoundHi _ h3,
      hexRoundHi _ h4, hexRoundHi _ h5, hexRoundHi _ h7,
      hexRoundHi _ h8, hexRoundHi _ h9, hexRoundHi _ h10, hexRoundHi _ h11,
      hexRoundHi _ h12, hexRoundHi _ h13, hexRoundHi _ h14, hexRoundHi _ h15,
      hvc, hvb, hb6, hexNeLo,
      hexNeHi _ h0, hexNeHi _ h1, hexNeHi _ h2, hexNeHi _ h3, hexNeHi _ h4,
      hexNeHi _ h5, hexNeHi _ h7, hexNeHi _ h9, hexNeHi _ h10,
      hexNeHi _ h11, hexNeHi _ h12, hexNeHi _ h13, hexNeHi _ h14, hexNeHi _ h15,
      hexRecon _ h0, hexRecon _ h1, hexRecon _ h2, hexRecon _ h3,
      hexRecon _ h4, hexRecon _ h5, hexRecon _ h7, hexRecon _ h8,
      hexRecon _ h9, hexRecon _ h10, hexRecon _ h11, hexRecon _ h12,
      hexRecon _ h13, hexRecon _ h14, hexRecon _ h15]
  · simp only [to_string, to_string_go, parse, parse_inner, parseTail, parseLoop]
    simp [List.getD, hv', hexChar7, hexVal7, hexRoundLo,
      hexRoundHi _ h0, hexRoundHi _ h1, hexRoundHi _ h2, hexRoundHi _ h3,
      hexRoundHi _ h4, hexRoundHi _ h5, hexRoundHi _ h7,
      hexRoundHi _ h8, hexRoundHi _ h9, hexRoundHi _ h10, hexRoundHi _ h11,
      hexRoundHi _ h12, hexRoundHi _ h13, hexRoundHi _ h14, hexRoundHi _ h15,
      hvc, hvb, hb6, hexNeLo,
      hexNeHi _ h0, hexNeHi _ h1, hexNeHi _ h2, hexNeHi _ h3, hexNeHi _ h4,
      hexNeHi _ h5, hexNeHi _ h7, hexNeHi _ h9, hexNeHi _ h10,
      hexNeHi _ h11, hexNeHi _ h12, hexNeHi _ h13, hexNeHi _ h14, hexNeHi _ h15,
      hexRecon _ h0, hexRecon _ h1, hexRecon _ h2, hexRecon _ h3,
      hexRecon _ h4, hexRecon _ h5, hexRecon _ h7, hexRecon _ h8,
      hexRecon _ h9, hexRecon _ h10, hexRecon _ h11, hexRecon _ h12,
      hexRecon _ h13, hexRecon _ h14, hexRecon _ h15]

/-- Witness for C5 at the scenario-B byte values. -/
theorem parse_to_string_roundtrip_witness :
    parse (to_string [0x01,0x96,0x53,0x47,0xe5,0x6d,0x75,0x71,0xa1,0xbb,0x61,0x20,0xdb,0xa3,0xa6,0x45] true)
        = Except.ok [0x01,0x96,0x53,0x47,0xe5,0x6d,0x75,0x71,0xa1,0xbb,0x61,0x20,0xdb,0xa3,0xa6,0x45]
    ∧ parse (to_string [0x01,0x96,0x53,0x47,0xe5,0x6d,0x75,0x71,0xa1,0xbb,0x61,0x20,0xdb,0xa3,0xa6,0x45] false)
        = Except.ok [0x01,0x96,0x53,0x47,0xe5,0x6d,0x75,0x71,0xa1,0xbb,0x61,0x20,0xdb,0xa3,0xa6,0x45] :=
  ⟨(parse_to_string_roundtrip 0x01 0x96 0x53 0x47 0xe5 0x6d 0x75 0x71 0xa1 0xbb 0x61 0x20 0xdb 0xa3 0xa6 0x45
      (by decide) (by decide) (by decide) (by decide) (by decide) (by decide) (by decide) (by decide)
      (by decide) (by decide) (by decide) (by decide) (by decide) (by decide) (by decide) (by decide)
      (by decide) (by decide)).1,
   (parse_to_string_roundtrip 0x01 0x96 0x53 0x47 0xe5 0x6d 0x75 0x71 0xa1 0xbb 0x61 0x20 0xdb 0xa3 0xa6 0x45
      (by decide) (by decide) (by decide) (by decide) (by decide) (by decide) (by decide) (by decide)
      (by decide) (by decide) (by decide) (by decide) (by decide) (by decide) (by decide) (by decide)
      (by decide) (by decide)).2.1⟩

end UUIDv7

namespace UUIDv7

/-- Claim C7: `try_parse` returns a value exactly when `parse` succeeds, with
the same result, and returns `none` whenever `parse` fails (whatever the
failure kind). -/
theorem try_parse_iff_parse (s : List Char) :
    (∀ u, try_parse s = some u ↔ parse s = Except.ok u)
    ∧ (∀ e, parse s = Except.error e → try_parse s = none) := by
  constructor
  · intro u
    unfold try_parse parse
    cases parse_inner s <;> simp
  · intro e h
    unfold try_parse parse at *
    cases hpi : parse_inner s <;> simp_all

/-- Witness for C7: agreement on a parseable string and emptiness on a
version-failing string. -/
theorem try_parse_iff_parse_witness :
    try_parse "01965347e56d7571a1bb6120dba3a645".toList
        = some [0x01, 0x96, 0x53, 0x47, 0xe5, 0x6d, 0x75, 0x71, 0xa1, 0xbb, 0x61, 0x20, 0xdb, 0xa3, 0xa6, 0x45]
    ∧ try_parse "75f50a24-995d-4606-bf3e-7f6c5b76c5c1".toList = none :=
  ⟨((try_parse_iff_parse _).1 _).mpr (by decide),
   (try_parse_iff_parse _).2 "Invalid UUID Version 7 version" (by decide)⟩

/-- Claim C8: `from_bytes` validates exactly the version nibble and the
variant bits; on success it returns the input bytes unchanged, on either
failure it reports a format error (the `invalid_format_error` class), and a
null byte source is itself a format error. -/
theorem from_bytes_spec (b : List Nat) :
    (from_bytes b = Except.ok b ↔ version_field b = 7 ∧ variant_field b = 2)
    ∧ (∀ u, from_bytes b = Except.ok u → u = b)
    ∧ (¬(version_field b = 7 ∧ variant_field b = 2) → ∃ msg, from_bytes b = Except.error msg)
    ∧ from_bytes_ptr (some b) = from_bytes b
    ∧ (∃ msg, from_bytes_ptr none = Except.error msg) := by
  simp only [from_bytes_ptr, from_bytes, version_field, variant_field]
  split_ifs <;> simp_all

/-- Witness for C8: acceptance of a valid byte array and rejection of a
version-4 byte array. -/
theorem from_bytes_spec_witness :
    from_bytes [0x01, 0x96, 0x53, 0x47, 0xe5, 0x6d, 0x75, 0x71, 0xa1, 0xbb, 0x61, 0x20, 0xdb, 0xa3, 0xa6, 0x45]
        = Except.ok [0x01, 0x96, 0x53, 0x47, 0xe5, 0x6d, 0x75, 0x71, 0xa1, 0xbb, 0x61, 0x20, 0xdb, 0xa3, 0xa6, 0x45]
    ∧ (∃ msg, from_bytes [0x01, 0x96, 0x53, 0x47, 0xe5, 0x6d, 0x45, 0x71, 0xa1, 0xbb, 0x61, 0x20, 0xdb, 0xa3, 0xa6, 0x45]
        = Except.error msg) :=
  ⟨((from_bytes_spec _).1).mpr (by decide), (from_bytes_spec _).2.2.1 (by decide)⟩

/-- Claim C9 (counterexample): the constructor has no assertion on
`unix_ts_ms`; `2^48` does not fit 48 bits, yet the constructor silently
accepts it and truncates it to the same encoding as timestamp 0 instead of
flagging a programming error. -/
theorem uuidv7_mk_accepts_oversized_timestamp :
    uuidv7_mk (2 ^ 48) 0 0 = some [0, 0, 0, 0, 0, 0, 0x70, 0, 0x80, 0, 0, 0, 0, 0, 0, 0]
    ∧ uuidv7_mk (2 ^ 48) 0 0 = uuidv7_mk 0 0 0 := by decide

/-- Claim C9 (amended): the constructor guards `rand_a ≤ 0x0FFF` and
`rand_b ≤ 0x3FFFFFFFFFFFFFFF` with assertions; `unix_ts_ms` is not asserted
but silently truncated to its low 48 bits; every in-range triple produces the
16-byte §3 layout (big-endian 48-bit timestamp, version nibble 7, `rand_a` in
byte 6's low nibble and byte 7, variant 0b10, `rand_b` in byte 8's low six
bits and bytes 9–15). -/
theorem uuidv7_mk_spec (ts a b : Nat) :
    (MAX_RAND_A < a ∨ MAX_RAND_B < b → uuidv7_mk ts a b = none)
    ∧ uuidv7_mk ts a b = uuidv7_mk (ts % 2 ^ 48) a b
    ∧ (a ≤ MAX_RAND_A → b ≤ MAX_RAND_B → ∀ u, uuidv7_mk ts a b = some u →
        wf u ∧ ts_field u = nowBytes ts ∧ version_field u = 7 ∧ variant_field u = 2
          ∧ rand_a_field u = a ∧ rand_b_field u = b) := by
  refine ⟨?_, ?_, ?_⟩
  · intro h
    have hc : ¬(a ≤ MAX_RAND_A ∧ b ≤ MAX_RAND_B) := by
      unfold MAX_RAND_A MAX_RAND_B at *; omega
    simp [uuidv7_mk, hc]
  · by_cases hc : a ≤ MAX_RAND_A ∧ b ≤ MAX_RAND_B
    · simp only [uuidv7_mk, if_pos hc, Option.some_inj, List.cons.injEq]
      exact ⟨by omega, by omega, by omega, by omega, by omega, by omega, by simp⟩
    · simp [uuidv7_mk, hc]
  · intro ha hb u hu
    rw [uuidv7_mk, if_pos ⟨ha, hb⟩] at hu
    injection hu with hu
    subst hu
    unfold MAX_RAND_A at ha
    unfold MAX_RAND_B at hb
    refine ⟨⟨by simp, ?_⟩, ?_, ?_, ?_, ?_, ?_⟩
    · intro x hx
      simp at hx
      rcases hx with h|h|h|h|h|h|h|h|h|h|h|h|h|h|h|h <;> omega
    · simp [ts_field, nowBytes]
    · simp [version_field, List.getD]; omega
    · simp [variant_field, List.getD]; omega
    · simp [rand_a_field, List.getD]; omega
    · simp [rand_b_field, List.getD]; omega

/-- Witness for C9 (amended): the `rand_a` assertion fires on an oversized
value, and an in-range triple decodes back to its fields. -/
theorem uuidv7_mk_spec_witness :
    uuidv7_mk 0 0x1000 0 = none
    ∧ (wf [0, 0, 0, 0, 0, 1, 0x70, 2, 0x80, 0, 0, 0, 0, 0, 0, 3]
        ∧ ts_field [0, 0, 0, 0, 0, 1, 0x70, 2, 0x80, 0, 0, 0, 0, 0, 0, 3] = nowBytes 1
        ∧ version_field [0, 0, 0, 0, 0, 1, 0x70, 2, 0x80, 0, 0, 0, 0, 0, 0, 3] = 7
        ∧ variant_field [0, 0, 0, 0, 0, 1, 0x70, 2, 0x80, 0, 0, 0, 0, 0, 0, 3] = 2
        ∧ rand_a_field [0, 0, 0, 0, 0, 1, 0x70, 2, 0x80, 0, 0, 0, 0, 0, 0, 3] = 2
        ∧ rand_b_field [0, 0, 0, 0, 0, 1, 0x70, 2, 0x80, 0, 0, 0, 0, 0, 0, 3] = 3) :=
  ⟨(uuidv7_mk_spec 0 0x1000 0).1 (Or.inl (by decide)),
   (uuidv7_mk_spec 1 2 3).2.2 (by decide) (by decide)
     [0, 0, 0, 0, 0, 1, 0x70, 2, 0x80, 0, 0, 0, 0, 0, 0, 3] (by decide)⟩

end UUIDv7

namespace UUIDv7

set_option maxHeartbeats 1000000 in
/-- If the hex loop of the 36-character form succeeds, every scanned character
was a hex digit. -/
theorem parseLoop_some_hex36 (s : List Char) (bytes : List Nat)
    (h : parseLoop s true 16 0 [] = some bytes) :
    ∀ i ∈ hexPositions36, hex_to_int (s.getD i 'x') ≠ 255 := by
  simp only [parseLoop, Option.ite_none_left_eq_some] at h
  simp at h
  obtain ⟨⟨k0, k1⟩, ⟨k2, k3⟩, ⟨k4, k5⟩, ⟨k6, k7⟩, ⟨k8, k9⟩, ⟨k10, k11⟩, ⟨k12, k13⟩,
    ⟨k14, k15⟩, ⟨k16, k17⟩, ⟨k18, k19⟩, ⟨k20, k21⟩, ⟨k22, k23⟩, ⟨k24, k25⟩, ⟨k26, k27⟩,
    ⟨k28, k29⟩, ⟨k30, k31⟩, keq⟩ := h
  intro i hi
  simp only [hexPositions36, List.mem_cons, List.not_mem_nil, or_false] at hi
  rcases hi with rfl|rfl|rfl|rfl|rfl|rfl|rfl|rfl|rfl|rfl|rfl|rfl|rfl|rfl|rfl|rfl|rfl|rfl|rfl|rfl|rfl|rfl|rfl|rfl|rfl|rfl|rfl|rfl|rfl|rfl|rfl|rfl <;>
    simp only [List.getD_eq_getElem?_getD] <;> assumption

set_option maxHeartbeats 1000000 in
/-- If the hex loop of the 32-character form succeeds, every scanned character
was a hex digit. -/
theorem parseLoop_some_hex32 (s : List Char) (bytes : List Nat)
    (h : parseLoop s false 16 0 [] = some bytes) :
    ∀ i ∈ hexPositions32, hex_to_int (s.getD i 'x') ≠ 255 := by
  simp only [parseLoop, Option.ite_none_left_eq_some] at h
  simp at h
  obtain ⟨⟨k0, k1⟩, ⟨k2, k3⟩, ⟨k4, k5⟩, ⟨k6, k7⟩, ⟨k8, k9⟩, ⟨k10, k11⟩, ⟨k12, k13⟩,
    ⟨k14, k15⟩, ⟨k16, k17⟩, ⟨k18, k19⟩, ⟨k20, k21⟩, ⟨k22, k23⟩, ⟨k24, k25⟩, ⟨k26, k27⟩,
    ⟨k28, k29⟩, ⟨k30, k31⟩, keq⟩ := h
  intro i hi
  simp only [hexPositions32, List.mem_cons, List.not_mem_nil, or_false] at hi
  rcases hi with rfl|rfl|rfl|rfl|rfl|rfl|rfl|rfl|rfl|rfl|rfl|rfl|rfl|rfl|rfl|rfl|rfl|rfl|rfl|rfl|rfl|rfl|rfl|rfl|rfl|rfl|rfl|rfl|rfl|rfl|rfl|rfl <;>
    simp only [List.getD_eq_getElem?_getD] <;> assumption

/-- Claim C6: `parse_inner` accepts exactly the 36-character hyphenated form
and the 32-character bare form (success implies one of the two frames); a
wrong length or misplaced hyphens is a format error, a non-`'7'` version
character is a version error, a hex variant character with top bits other
than 0b10 is a variant error, a non-hex character (the variant position
included) is a format error, and the concrete version-4 string of scenario C
fails with a version error. -/
theorem parse_error_kinds (s : List Char) :
    (s.length ≠ 36 → s.length ≠ 32 → parse_inner s = ParseResult.InvalidFormat)
    ∧ (s.length = 36 →
        ¬(s.getD 8 'x' = '-' ∧ s.getD 13 'x' = '-' ∧ s.getD 18 'x' = '-' ∧ s.getD 23 'x' = '-') →
        parse_inner s = ParseResult.InvalidFormat)
    ∧ (s.length = 36 → s.getD 8 'x' = '-' → s.getD 13 'x' = '-' → s.getD 18 'x' = '-' →
        s.getD 23 'x' = '-' → s.getD 14 'x' ≠ '7' → parse_inner s = ParseResult.InvalidVersion)
    ∧ (s.length = 32 → s.getD 12 'x' ≠ '7' → parse_inner s = ParseResult.InvalidVersion)
    ∧ (s.length = 36 → s.getD 8 'x' = '-' → s.getD 13 'x' = '-' → s.getD 18 'x' = '-' →
        s.getD 23 'x' = '-' → s.getD 14 'x' = '7' → hex_to_int (s.getD 19 'x') ≠ 255 →
        hex_to_int (s.getD 19 'x') / 4 % 4 ≠ 2 → parse_inner s = ParseResult.InvalidVariant)
    ∧ (s.length = 32 → s.getD 12 'x' = '7' → hex_to_int (s.getD 16 'x') ≠ 255 →
        hex_to_int (s.getD 16 'x') / 4 % 4 ≠ 2 → parse_inner s = ParseResult.InvalidVariant)
    ∧ (s.length = 36 → s.getD 8 'x' = '-' → s.getD 13 'x' = '-' → s.getD 18 'x' = '-' →
        s.getD 23 'x' = '-' → s.getD 14 'x' = '7' → hex_to_int (s.getD 19 'x') / 4 % 4 = 2 →
        (∃ i ∈ hexPositions36, hex_to_int (s.getD i 'x') = 255) →
        parse_inner s = ParseResult.InvalidFormat)
    ∧ (s.length = 32 → s.getD 12 'x' = '7' → hex_to_int (s.getD 16 'x') / 4 % 4 = 2 →
        (∃ i ∈ hexPositions32, hex_to_int (s.getD i 'x') = 255) →
        parse_inner s = ParseResult.InvalidFormat)
    ∧ (∀ bytes, parse_inner s = ParseResult.Success bytes →
        (s.length = 36 ∧ s.getD 8 'x' = '-' ∧ s.getD 13 'x' = '-' ∧ s.getD 18 'x' = '-'
          ∧ s.getD 23 'x' = '-') ∨ s.length = 32)
    ∧ parse_inner "75f50a24-995d-4606-bf3e-7f6c5b76c5c1".toList = ParseResult.InvalidVersion := by
  refine ⟨?_, ?_, ?_, ?_, ?_, ?_, ?_, ?_, ?_, by decide⟩
  · intro h36 h32
    simp only [parse_inner]
    rw [if_neg h36, if_neg h32]
  · intro h36 hh
    simp only [parse_inner]
    rw [if_pos h36, if_pos (by tauto)]
  · intro h36 h8 h13 h18 h23 hv
    simp only [parse_inner, parseTail]
    rw [if_pos h36, if_neg (by tauto), if_pos hv]
  · intro h32 hv
    simp only [parse_inner, parseTail]
    rw [if_neg (show ¬s.length = 36 by omega), if_pos h32, if_pos hv]
  · intro h36 h8 h13 h18 h23 hv h255 hbits
    simp only [parse_inner, parseTail]
    rw [if_pos h36, if_neg (by tauto), if_neg (not_ne_iff.mpr hv), if_neg h255, if_pos hbits]
  · intro h32 hv h255 hbits
    simp only [parse_inner, parseTail]
    rw [if_neg (show ¬s.length = 36 by omega), if_pos h32, if_neg (not_ne_iff.mpr hv),
      if_neg h255, if_pos hbits]
  · intro h36 h8 h13 h18 h23 hv hbits hex
    obtain ⟨i, hi, hbad⟩ := hex
    simp only [parse_inner, parseTail]
    rw [if_pos h36, if_neg (by tauto), if_neg (not_ne_iff.mpr hv)]
    by_cases h255 : hex_to_int (s.getD 19 'x') = 255
    · rw [if_pos h255]
    · rw [if_neg h255, if_neg (not_ne_iff.mpr hbits)]
      cases hpl : parseLoop s true 16 0 [] with
      | none => rfl
      | some bytes => exact absurd hbad (parseLoop_some_hex36 s bytes hpl i hi)
  · intro h32 hv hbits hex
    obtain ⟨i, hi, hbad⟩ := hex
    simp only [parse_inner, parseTail]
    rw [if_neg (show ¬s.length = 36 by omega), if_pos h32, if_neg (not_ne_iff.mpr hv)]
    by_cases h255 : hex_to_int (s.getD 16 'x') = 255
    · rw [if_pos h255]
    · rw [if_neg h255, if_neg (not_ne_iff.mpr hbits)]
      cases hpl : parseLoop s false 16 0 [] with
      | none => rfl
      | some bytes => exact absurd hbad (parseLoop_some_hex32 s bytes hpl i hi)
  · intro bytes hsucc
    by_cases h36 : s.length = 36
    · by_cases hh : s.getD 8 'x' = '-' ∧ s.getD 13 'x' = '-' ∧ s.getD 18 'x' = '-' ∧ s.getD 23 'x' = '-'
      · exact Or.inl ⟨h36, hh.1, hh.2.1, hh.2.2.1, hh.2.2.2⟩
      · exfalso
        simp only [parse_inner] at hsucc
        rw [if_pos h36, if_pos (by tauto)] at hsucc
        exact ParseResult.noConfusion hsucc
    · by_cases h32 : s.length = 32
      · exact Or.inr h32
      · exfalso
        simp only [parse_inner] at hsucc
        rw [if_neg h36, if_neg h32] at hsucc
        exact ParseResult.noConfusion hsucc

end UUIDv7

namespace UUIDv7

/-- Claim C10: when an input has several defects, the failure kind follows
the code's fixed priority: the length / hyphen frame is checked first, then
the version character (a version error is reported even if other characters
are not hex), then the variant character (non-hex there is a format error, a
hex digit with top bits not 0b10 is a variant error, in both cases
irrespective of the remaining characters), and only then the hex scan; the
three concrete multi-defect strings illustrate each priority. -/
theorem parse_error_priority (s : List Char) :
    (s.length ≠ 36 → s.length ≠ 32 → parse_inner s = ParseResult.InvalidFormat)
    ∧ (s.length = 36 →
        ¬(s.getD 8 'x' = '-' ∧ s.getD 13 'x' = '-' ∧ s.getD 18 'x' = '-' ∧ s.getD 23 'x' = '-') →
        parse_inner s = ParseResult.InvalidFormat)
    ∧ (s.length = 36 → s.getD 8 'x' = '-' → s.getD 13 'x' = '-' → s.getD 18 'x' = '-' →
        s.getD 23 'x' = '-' → s.getD 14 'x' ≠ '7' → parse_inner s = ParseResult.InvalidVersion)
    ∧ (s.length = 32 → s.getD 12 'x' ≠ '7' → parse_inner s = ParseResult.InvalidVersion)
    ∧ (s.length = 36 → s.getD 8 'x' = '-' → s.getD 13 'x' = '-' → s.getD 18 'x' = '-' →
        s.getD 23 'x' = '-' → s.getD 14 'x' = '7' → hex_to_int (s.getD 19 'x') = 255 →
        parse_inner s = ParseResult.InvalidFormat)
    ∧ (s.length = 32 → s.getD 12 'x' = '7' → hex_to_int (s.getD 16 'x') = 255 →
        parse_inner s = ParseResult.InvalidFormat)
    ∧ (s.length = 36 → s.getD 8 'x' = '-' → s.getD 13 'x' = '-' → s.getD 18 'x' = '-' →
        s.getD 23 'x' = '-' → s.getD 14 'x' = '7' → hex_to_int (s.getD 19 'x') ≠ 255 →
        hex_to_int (s.getD 19 'x') / 4 % 4 ≠ 2 → parse_inner s = ParseResult.InvalidVariant)
    ∧ (s.length = 32 → s.getD 12 'x' = '7' → hex_to_int (s.getD 16 'x') ≠ 255 →
        hex_to_int (s.getD 16 'x') / 4 % 4 ≠ 2 → parse_inner s = ParseResult.InvalidVariant)
    ∧ parse_inner "95f50a24-995d-4606-bf3e-7f6c5b76c5cZ".toList = ParseResult.InvalidVersion
    ∧ parse_inner "01965347-e56d-7571-Z1bb-6120dba3a645".toList = ParseResult.InvalidFormat
    ∧ parse_inner "01965347-e56d-7571-01bb-6120dba3a64Z".toList = ParseResult.InvalidVariant := by
  refine ⟨?_, ?_, ?_, ?_, ?_, ?_, ?_, ?_, by decide, by decide, by decide⟩
  · intro h36 h32
    simp only [parse_inner]
    rw [if_neg h36, if_neg h32]
  · intro h36 hh
    simp only [parse_inner]
    rw [if_pos h36, if_pos (by tauto)]
  · intro h36 h8 h13 h18 h23 hv
    simp only [parse_inner, parseTail]
    rw [if_pos h36, if_neg (by tauto), if_pos hv]
  · intro h32 hv
    simp only [parse_inner, parseTail]
    rw [if_neg (show ¬s.length = 36 by omega), if_pos h32, if_pos hv]
  · intro h36 h8 h13 h18 h23 hv h255
    simp only [parse_inner, parseTail]
    rw [if_pos h36, if_neg (by tauto), if_neg (not_ne_iff.mpr hv), if_pos h255]
  · intro h32 hv h255
    simp only [parse_inner, parseTail]
    rw [if_neg (show ¬s.length = 36 by omega), if_pos h32, if_neg (not_ne_iff.mpr hv), if_pos h255]
  · intro h36 h8 h13 h18 h23 hv h255 hbits
    simp only [parse_inner, parseTail]
    rw [if_pos h36, if_neg (by tauto), if_neg (not_ne_iff.mpr hv), if_neg h255, if_pos hbits]
  · intro h32 hv h255 hbits
    simp only [parse_inner, parseTail]
    rw [if_neg (show ¬s.length = 36 by omega), if_pos h32, if_neg (not_ne_iff.mpr hv),
      if_neg h255, if_pos hbits]

/-- Witness for C6 on concrete defective inputs. -/
theorem parse_error_kinds_witness :
    parse_inner "abc".toList = ParseResult.InvalidFormat
    ∧ parse_inner "01965347-e56d-7571-01bb-6120dba3a645".toList = ParseResult.InvalidVariant :=
  ⟨(parse_error_kinds "abc".toList).1 (by decide) (by decide),
   (parse_error_kinds "01965347-e56d-7571-01bb-6120dba3a645".toList).2.2.2.2.1
     (by decide) (by decide) (by decide) (by decide) (by decide) (by decide) (by decide) (by decide)⟩

/-- Witness for C10 on concrete defective inputs. -/
theorem parse_error_priority_witness :
    parse_inner "0196534-7e56-d757-1a1b-b6120dba3a645".toList = ParseResult.InvalidFormat
    ∧ parse_inner "75f50a24995d4606bf3e7f6c5b76c5c1".toList = ParseResult.InvalidVersion :=
  ⟨(parse_error_priority "0196534-7e56-d757-1a1b-b6120dba3a645".toList).2.1
     (by decide) (by decide),
   (parse_error_priority "75f50a24995d4606bf3e7f6c5b76c5c1".toList).2.2.2.1
     (by decide) (by decide)⟩

end UUIDv7

namespace UUIDv7

/-- A list of length 16 is sixteen explicit elements. -/
theorem list16_destruct (st : List Nat) (h : st.length = 16) :
    ∃ a0 a1 a2 a3 a4 a5 a6 a7 a8 a9 a10 a11 a12 a13 a14 a15,
      st = [a0, a1, a2, a3, a4, a5, a6, a7, a8, a9, a10, a11, a12, a13, a14, a15] := by
  rcases st with _ | ⟨a0, st⟩
  · simp at h
  rcases st with _ | ⟨a1, st⟩
  · simp at h
  rcases st with _ | ⟨a2, st⟩
  · simp at h
  rcases st with _ | ⟨a3, st⟩
  · simp at h
  rcases st with _ | ⟨a4, st⟩
  · simp at h
  rcases st with _ | ⟨a5, st⟩
  · simp at h
  rcases st with _ | ⟨a6, st⟩
  · simp at h
  rcases st with _ | ⟨a7, st⟩
  · simp at h
  rcases st with _ | ⟨a8, st⟩
  · simp at h
  rcases st with _ | ⟨a9, st⟩
  · simp at h
  rcases st with _ | ⟨a10, st⟩
  · simp at h
  rcases st with _ | ⟨a11, st⟩
  · simp at h
  rcases st with _ | ⟨a12, st⟩
  · simp at h
  rcases st with _ | ⟨a13, st⟩
  · simp at h
  rcases st with _ | ⟨a14, st⟩
  · simp at h
  rcases st with _ | ⟨a15, st⟩
  · simp at h
  rcases st with _ | ⟨a16, st⟩
  · exact ⟨a0, a1, a2, a3, a4, a5, a6, a7, a8, a9, a10, a11, a12, a13, a14, a15, rfl⟩
  · simp at h

/-- `getD` with default 0 on a list of bytes stays below 256. -/
theorem getD_bound (l : List Nat) (i : Nat) (h : ∀ b ∈ l, b < 256) : l.getD i 0 < 256 := by
  induction l generalizing i with
  | nil => simp [List.getD]
  | cons x xs ih =>
    cases i with
    | zero => exact h x (by simp)
    | succ j =>
      simp only [List.getD_cons_succ]
      exact ih j (fun b hb => h b (by simp [hb]))

/-- Byte-wise lexicographic comparison is transitive. -/
theorem bytesLt_trans (a : List Nat) :
    ∀ b c, bytesLt a b = true → bytesLt b c = true → bytesLt a c = true := by
  induction a with
  | nil => intro b c hab _; simp [bytesLt] at hab
  | cons a0 as ih =>
    intro b c hab hbc
    cases b with
    | nil => simp [bytesLt] at hab
    | cons b0 bs =>
      cases c with
      | nil => simp [bytesLt] at hbc
      | cons c0 cs =>
        simp only [bytesLt] at *
        split_ifs at * <;> first | rfl | omega | exact ih bs cs hab hbc

/-- A strict comparison of equal-length prefixes decides the comparison of any
extensions. -/
theorem bytesLt_append (a : List Nat) :
    ∀ (b x y : List Nat), a.length = b.length → bytesLt a b = true →
      bytesLt (a ++ x) (b ++ y) = true := by
  induction a with
  | nil =>
    intro b x y hlen h
    simp [bytesLt] at h
  | cons a0 as ih =>
    intro b x y hlen h
    cases b with
    | nil => simp at hlen
    | cons b0 bs =>
      simp only [bytesLt, List.cons_append, List.length_cons] at *
      split_ifs at * <;> first | rfl | omega | exact ih bs x y (by omega) h

/-- The big-endian value of a byte list is bounded by its width. -/
theorem valBE_lt (l : List Nat) (h : ∀ b ∈ l, b < 256) : valBE l < 256 ^ l.length := by
  induction l with
  | nil => simp [valBE]
  | cons b rest ih =>
    have hb : b < 256 := h b (by simp)
    have hr : valBE rest < 256 ^ rest.length := ih (fun x hx => h x (by simp [hx]))
    simp only [valBE, List.length_cons, pow_succ]
    calc b * 256 ^ rest.length + valBE rest
        < b * 256 ^ rest.length + 256 ^ rest.length := by omega
      _ = (b + 1) * 256 ^ rest.length := by ring
      _ ≤ 256 * 256 ^ rest.length := Nat.mul_le_mul_right _ (by omega)
      _ = 256 ^ rest.length * 256 := by ring

/-- On equal-length byte lists, lexicographic order is numeric order of the
big-endian values. -/
theorem bytesLt_iff_valBE (a : List Nat) :
    ∀ b, a.length = b.length → (∀ x ∈ a, x < 256) → (∀ x ∈ b, x < 256) →
      (bytesLt a b = true ↔ valBE a < valBE b) := by
  induction a with
  | nil =>
    intro b hlen _ _
    cases b with
    | nil => simp [bytesLt, valBE]
    | cons b0 bs => simp at hlen
  | cons a0 as ih =>
    intro b hlen ha hb
    cases b with
    | nil => simp at hlen
    | cons b0 bs =>
      have hlen' : as.length = bs.length := by simpa using hlen
      have iha := ih bs hlen' (fun x hx => ha x (by simp [hx])) (fun x hx => hb x (by simp [hx]))
      have hva := valBE_lt as (fun x hx => ha x (by simp [hx]))
      have hvb := valBE_lt bs (fun x hx => hb x (by simp [hx]))
      rw [hlen'] at hva
      simp only [valBE, hlen']
      constructor
      · intro h
        simp only [bytesLt] at h
        split_ifs at h with h1 h2
        · calc a0 * 256 ^ bs.length + valBE as
              < a0 * 256 ^ bs.length + 256 ^ bs.length := by omega
            _ = (a0 + 1) * 256 ^ bs.length := by ring
            _ ≤ b0 * 256 ^ bs.length := Nat.mul_le_mul_right _ (by omega)
            _ ≤ b0 * 256 ^ bs.length + valBE bs := by omega
        · subst h2
          exact Nat.add_lt_add_left (iha.mp h) _
      · intro h
        rcases Nat.lt_trichotomy a0 b0 with h1 | h1 | h1
        · simp [bytesLt, h1]
        · subst h1
          have h2 : valBE as < valBE bs := by omega
          simp only [bytesLt, if_neg (Nat.lt_irrefl a0), if_pos rfl]
          exact iha.mpr h2
        · exfalso
          have : b0 * 256 ^ bs.length + valBE bs
              < a0 * 256 ^ bs.length + valBE as := by
            calc b0 * 256 ^ bs.length + valBE bs
                < b0 * 256 ^ bs.length + 256 ^ bs.length := by omega
              _ = (b0 + 1) * 256 ^ bs.length := by ring
              _ ≤ a0 * 256 ^ bs.length := Nat.mul_le_mul_right _ (by omega)
              _ ≤ a0 * 256 ^ bs.length + valBE as := by omega
          omega

/-- The 6-byte clock encoding has the truncated clock as its value. -/
theorem valBE_nowBytes (z : Nat) : valBE (nowBytes z) = z % 2 ^ 48 := by
  simp only [nowBytes, valBE, List.length_cons, List.length_nil]
  norm_num
  omega

/-- Comparing two clock encodings is comparing the clocks modulo 2^48. -/
theorem nowBytes_lt (x y : Nat) :
    bytesLt (nowBytes x) (nowBytes y) = true ↔ x % 2 ^ 48 < y % 2 ^ 48 := by
  rw [bytesLt_iff_valBE (nowBytes x) (nowBytes y) rfl ?_ ?_, valBE_nowBytes, valBE_nowBytes]
  · intro b hb
    simp [nowBytes] at hb
    rcases hb with h|h|h|h|h|h <;> omega
  · intro b hb
    simp [nowBytes] at hb
    rcases hb with h|h|h|h|h|h <;> omega

end UUIDv7

namespace UUIDv7

set_option maxHeartbeats 4000000 in
/-- A successful counter increment leaves bytes 0–5 untouched, yields a
strictly larger byte string, preserves well-formedness and the version
nibble, and adds exactly one to the 74-bit tail counter. -/
theorem incTail_ok_spec (b0 b1 b2 b3 b4 b5 b6 b7 b8 b9 b10 b11 b12 b13 b14 b15 : Nat)
    (h0 : b0 < 256) (h1 : b1 < 256) (h2 : b2 < 256) (h3 : b3 < 256) (h4 : b4 < 256) (h5 : b5 < 256) (h6 : b6 < 256) (h7 : b7 < 256) (h8 : b8 < 256) (h9 : b9 < 256) (h10 : b10 < 256) (h11 : b11 < 256) (h12 : b12 < 256) (h13 : b13 < 256) (h14 : b14 < 256) (h15 : b15 < 256)
    (st' : List Nat)
    (h : incTail [b0, b1, b2, b3, b4, b5, b6, b7, b8, b9, b10, b11, b12, b13, b14, b15] = IncResult.ok st') :
    bytesLt [b0, b1, b2, b3, b4, b5, b6, b7, b8, b9, b10, b11, b12, b13, b14, b15] st' = true
    ∧ st'.take 6 = [b0, b1, b2, b3, b4, b5]
    ∧ wf st'
    ∧ version_field st' = version_field [b0, b1, b2, b3, b4, b5, b6, b7, b8, b9, b10, b11, b12, b13, b14, b15]
    ∧ counter74 st' = counter74 [b0, b1, b2, b3, b4, b5, b6, b7, b8, b9, b10, b11, b12, b13, b14, b15] + 1 := by
  simp only [incTail] at h
  by_cases c15 : b15 < 255
  · rw [if_pos c15] at h
    injection h with h
    subst h
    refine ⟨?_, ?_, ?_, ?_, ?_⟩ <;>
      simp [bytesLt, wf, version_field, counter74, rand_a_field,
        rand_b_field, List.getD, Nat.lt_succ_self] <;>
      omega
  · rw [if_neg c15] at h
    by_cases c14 : b14 < 255
    · rw [if_pos c14] at h
      injection h with h
      subst h
      refine ⟨?_, ?_, ?_, ?_, ?_⟩ <;>
        simp [bytesLt, wf, version_field, counter74, rand_a_field,
          rand_b_field, List.getD, Nat.lt_succ_self] <;>
        omega
    · rw [if_neg c14] at h
      by_cases c13 : b13 < 255
      · rw [if_pos c13] at h
        injection h with h
        subst h
        refine ⟨?_, ?_, ?_, ?_, ?_⟩ <;>
          simp [bytesLt, wf, version_field, counter74, rand_a_field,
            rand_b_field, List.getD, Nat.lt_succ_self] <;>
          omega
      · rw [if_neg c13] at h
        by_cases c12 : b12 < 255
        · rw [if_pos c12] at h
          injection h with h
          subst h
          refine ⟨?_, ?_, ?_, ?_, ?_⟩ <;>
            simp [bytesLt, wf, version_field, counter74, rand_a_field,
              rand_b_field, List.getD, Nat.lt_succ_self] <;>
            omega
        · rw [if_neg c12] at h
          by_cases c11 : b11 < 255
          · rw [if_pos c11] at h
            injection h with h
            subst h
            refine ⟨?_, ?_, ?_, ?_, ?_⟩ <;>
              simp [bytesLt, wf, version_field, counter74, rand_a_field,
                rand_b_field, List.getD, Nat.lt_succ_self] <;>
              omega
          · rw [if_neg c11] at h
            by_cases c10 : b10 < 255
            · rw [if_pos c10] at h
              injection h with h
              subst h
              refine ⟨?_, ?_, ?_, ?_, ?_⟩ <;>
                simp [bytesLt, wf, version_field, counter74, rand_a_field,
                  rand_b_field, List.getD, Nat.lt_succ_self] <;>
                omega
            · rw [if_neg c10] at h
              by_cases c9 : b9 < 255
              · rw [if_pos c9] at h
                injection h with h
                subst h
                refine ⟨?_, ?_, ?_, ?_, ?_⟩ <;>
                  simp [bytesLt, wf, version_field, counter74, rand_a_field,
                    rand_b_field, List.getD, Nat.lt_succ_self] <;>
                  omega
              · rw [if_neg c9] at h
                by_cases c8 : b8 % 64 < 63
                · rw [if_pos c8] at h
                  injection h with h
                  subst h
                  refine ⟨?_, ?_, ?_, ?_, ?_⟩ <;>
                    simp [bytesLt, wf, version_field, counter74, rand_a_field,
                      rand_b_field, List.getD, Nat.lt_succ_self] <;>
                    omega
                · rw [if_neg c8] at h
                  by_cases c7 : b7 < 255
                  · rw [if_pos c7] at h
                    injection h with h
                    subst h
                    refine ⟨?_, ?_, ?_, ?_, ?_⟩ <;>
                      simp [bytesLt, wf, version_field, counter74, rand_a_field,
                        rand_b_field, List.getD, Nat.lt_succ_self] <;>
                      omega
                  · rw [if_neg c7] at h
                    by_cases c6 : b6 % 16 < 15
                    · rw [if_pos c6] at h
                      injection h with h
                      subst h
                      refine ⟨?_, ?_, ?_, ?_, ?_⟩ <;>
                        simp [bytesLt, wf, version_field, counter74, rand_a_field,
                          rand_b_field, List.getD, Nat.lt_succ_self] <;>
                        omega
                    · rw [if_neg c6] at h
                      exact IncResult.noConfusion h

set_option maxHeartbeats 4000000 in
/-- A successful counter increment keeps the variant bits at 0b10 whenever
they were 0b10 before (every constructor of the library enforces them). -/
theorem incTail_variant (b0 b1 b2 b3 b4 b5 b6 b7 b8 b9 b10 b11 b12 b13 b14 b15 : Nat)
    (hv8 : b8 / 64 % 4 = 2)
    (st' : List Nat)
    (h : incTail [b0, b1, b2, b3, b4, b5, b6, b7, b8, b9, b10, b11, b12, b13, b14, b15] = IncResult.ok st') :
    variant_field st' = 2 := by
  simp only [incTail] at h
  by_cases c15 : b15 < 255
  · rw [if_pos c15] at h
    injection h with h
    subst h
    simp [variant_field, List.getD] at hv8 ⊢
    try omega
  · rw [if_neg c15] at h
    by_cases c14 : b14 < 255
    · rw [if_pos c14] at h
      injection h with h
      subst h
      simp [variant_field, List.getD] at hv8 ⊢
      try omega
    · rw [if_neg c14] at h
      by_cases c13 : b13 < 255
      · rw [if_pos c13] at h
        injection h with h
        subst h
        simp [variant_field, List.getD] at hv8 ⊢
        try omega
      · rw [if_neg c13] at h
        by_cases c12 : b12 < 255
        · rw [if_pos c12] at h
          injection h with h
          subst h
          simp [variant_field, List.getD] at hv8 ⊢
          try omega
        · rw [if_neg c12] at h
          by_cases c11 : b11 < 255
          · rw [if_pos c11] at h
            injection h with h
            subst h
            simp [variant_field, List.getD] at hv8 ⊢
            try omega
          · rw [if_neg c11] at h
            by_cases c10 : b10 < 255
            · rw [if_pos c10] at h
              injection h with h
              subst h
              simp [variant_field, List.getD] at hv8 ⊢
              try omega
            · rw [if_neg c10] at h
              by_cases c9 : b9 < 255
              · rw [if_pos c9] at h
                injection h with h
                subst h
                simp [variant_field, List.getD] at hv8 ⊢
                try omega
              · rw [if_neg c9] at h
                by_cases c8 : b8 % 64 < 63
                · rw [if_pos c8] at h
                  injection h with h
                  subst h
                  simp [variant_field, List.getD] at hv8 ⊢
                  try omega
                · rw [if_neg c8] at h
                  by_cases c7 : b7 < 255
                  · rw [if_pos c7] at h
                    injection h with h
                    subst h
                    simp [variant_field, List.getD] at hv8 ⊢
                    try omega
                  · rw [if_neg c7] at h
                    by_cases c6 : b6 % 16 < 15
                    · rw [if_pos c6] at h
                      injection h with h
                      subst h
                      simp [variant_field, List.getD] at hv8 ⊢
                      try omega
                    · rw [if_neg c6] at h
                      exact IncResult.noConfusion h

set_option maxHeartbeats 2000000 in
/-- The counter increment succeeds whenever the 74-bit tail is not all-ones. -/
theorem incTail_not_max (b0 b1 b2 b3 b4 b5 b6 b7 b8 b9 b10 b11 b12 b13 b14 b15 : Nat)
    (h0 : b0 < 256) (h1 : b1 < 256) (h2 : b2 < 256) (h3 : b3 < 256) (h4 : b4 < 256) (h5 : b5 < 256) (h6 : b6 < 256) (h7 : b7 < 256) (h8 : b8 < 256) (h9 : b9 < 256) (h10 : b10 < 256) (h11 : b11 < 256) (h12 : b12 < 256) (h13 : b13 < 256) (h14 : b14 < 256) (h15 : b15 < 256)
    (hc : counter74 [b0, b1, b2, b3, b4, b5, b6, b7, b8, b9, b10, b11, b12, b13, b14, b15] ≠ 2 ^ 74 - 1) :
    ∃ st', incTail [b0, b1, b2, b3, b4, b5, b6, b7, b8, b9, b10, b11, b12, b13, b14, b15] = IncResult.ok st' := by
  simp only [incTail]
  by_cases c15 : b15 < 255
  · rw [if_pos c15]
    exact ⟨_, rfl⟩
  · rw [if_neg c15]
    by_cases c14 : b14 < 255
    · rw [if_pos c14]
      exact ⟨_, rfl⟩
    · rw [if_neg c14]
      by_cases c13 : b13 < 255
      · rw [if_pos c13]
        exact ⟨_, rfl⟩
      · rw [if_neg c13]
        by_cases c12 : b12 < 255
        · rw [if_pos c12]
          exact ⟨_, rfl⟩
        · rw [if_neg c12]
          by_cases c11 : b11 < 255
          · rw [if_pos c11]
            exact ⟨_, rfl⟩
          · rw [if_neg c11]
            by_cases c10 : b10 < 255
            · rw [if_pos c10]
              exact ⟨_, rfl⟩
            · rw [if_neg c10]
              by_cases c9 : b9 < 255
              · rw [if_pos c9]
                exact ⟨_, rfl⟩
              · rw [if_neg c9]
                by_cases c8 : b8 % 64 < 63
                · rw [if_pos c8]
                  exact ⟨_, rfl⟩
                · rw [if_neg c8]
                  by_cases c7 : b7 < 255
                  · rw [if_pos c7]
                    exact ⟨_, rfl⟩
                  · rw [if_neg c7]
                    by_cases c6 : b6 % 16 < 15
                    · rw [if_pos c6]
                      exact ⟨_, rfl⟩
                    · rw [if_neg c6]
                      exfalso
                      simp [counter74, rand_a_field, rand_b_field, List.getD] at hc
                      omega

end UUIDv7

namespace UUIDv7

/-- A successful `generate()` call returns a strictly larger identifier and a
well-formed stored value, whatever the clock did. -/
theorem generate_ok_step (st st' : List Nat) (ms : Nat) (r : Option (List Nat))
    (hwf : wf st) (hr : ∀ l, r = some l → ∀ x ∈ l, x < 256)
    (h : generate st ms r = GenResult.ok st') :
    bytesLt st st' = true ∧ wf st' := by
  obtain ⟨hlen, hmem⟩ := hwf
  obtain ⟨a0, a1, a2, a3, a4, a5, a6, a7, a8, a9, a10, a11, a12, a13, a14, a15, rfl⟩ :=
    list16_destruct st hlen
  simp only [generate] at h
  by_cases hlt : bytesLt (List.take 6 [a0, a1, a2, a3, a4, a5, a6, a7, a8, a9, a10, a11, a12, a13, a14, a15]) (nowBytes ms) = true
  · rw [if_pos hlt] at h
    cases r with
    | none => exact GenResult.noConfusion h
    | some l =>
      simp only at h
      injection h with h
      subst h
      have hl : ∀ x ∈ l, x < 256 := hr l rfl
      constructor
      · have e : ([a0, a1, a2, a3, a4, a5, a6, a7, a8, a9, a10, a11, a12, a13, a14, a15] : List Nat)
            = [a0, a1, a2, a3, a4, a5] ++ [a6, a7, a8, a9, a10, a11, a12, a13, a14, a15] := rfl
        rw [e]
        apply bytesLt_append
        · simp [nowBytes]
        · simpa using hlt
      · constructor
        · simp [nowBytes]
        · intro x hx
          have g1 := getD_bound l 1 hl
          have g3 := getD_bound l 3 hl
          have g4 := getD_bound l 4 hl
          have g5 := getD_bound l 5 hl
          have g6 := getD_bound l 6 hl
          have g7 := getD_bound l 7 hl
          have g8 := getD_bound l 8 hl
          have g9 := getD_bound l 9 hl
          simp only [List.getD_eq_getElem?_getD] at g1 g3 g4 g5 g6 g7 g8 g9
          simp [nowBytes] at hx
          rcases hx with h|h|h|h|h|h|h|h|h|h|h|h|h|h|h|h <;> omega
  · rw [if_neg hlt] at h
    cases hit : incTail [a0, a1, a2, a3, a4, a5, a6, a7, a8, a9, a10, a11, a12, a13, a14, a15] with
    | ok st1 =>
      rw [hit] at h
      simp only at h
      injection h with h
      subst h
      have spec := incTail_ok_spec a0 a1 a2 a3 a4 a5 a6 a7 a8 a9 a10 a11 a12 a13 a14 a15
        (hmem _ (by simp)) (hmem _ (by simp)) (hmem _ (by simp)) (hmem _ (by simp))
        (hmem _ (by simp)) (hmem _ (by simp)) (hmem _ (by simp)) (hmem _ (by simp))
        (hmem _ (by simp)) (hmem _ (by simp)) (hmem _ (by simp)) (hmem _ (by simp))
        (hmem _ (by simp)) (hmem _ (by simp)) (hmem _ (by simp)) (hmem _ (by simp))
        st1 hit
      exact ⟨spec.1, spec.2.2.1⟩
    | overflow st1 =>
      rw [hit] at h
      exact GenResult.noConfusion h

/-- Along any successful call sequence the outputs exceed the initial state,
stay well-formed and are pairwise strictly increasing. -/
theorem runGen_increasing (calls : List (Nat × Option (List Nat))) :
    ∀ st outs, wf st →
      (∀ p ∈ calls, ∀ l, p.2 = some l → ∀ x ∈ l, x < 256) →
      runGen st calls = some outs →
      (∀ o ∈ outs, bytesLt st o = true) ∧ (∀ o ∈ outs, wf o)
        ∧ List.Pairwise (fun a b => bytesLt a b = true) outs := by
  induction calls with
  | nil =>
    intro st outs hwf hr h
    simp [runGen] at h
    subst h
    simp
  | cons p calls ih =>
    obtain ⟨ms, r⟩ := p
    intro st outs hwf hr h
    simp only [runGen] at h
    cases hg : generate st ms r with
    | ok st1 =>
      rw [hg] at h
      simp only at h
      cases hrun : runGen st1 calls with
      | none => rw [hrun] at h; exact Option.noConfusion h
      | some outs2 =>
        rw [hrun] at h
        simp only at h
        injection h with h
        subst h
        have step := generate_ok_step st st1 ms r hwf (fun l hl => hr (ms, r) (by simp) l hl) hg
        have ihh := ih st1 outs2 step.2 (fun q hq l hl => hr q (by simp [hq]) l hl) hrun
        refine ⟨?_, ?_, ?_⟩
        · intro o ho
          rcases List.mem_cons.mp ho with rfl | ho2
          · exact step.1
          · exact bytesLt_trans st st1 o step.1 (ihh.1 o ho2)
        · intro o ho
          rcases List.mem_cons.mp ho with rfl | ho2
          · exact step.2
          · exact ihh.2.1 o ho2
        · exact List.Pairwise.cons (fun o ho => ihh.1 o ho) ihh.2.2
    | overflowErr st1 => rw [hg] at h; simp only at h; exact Option.noConfusion h
    | randErr st1 => rw [hg] at h; simp only at h; exact Option.noConfusion h

end UUIDv7
namespace UUIDv7

/-- Claim C2: for a single generator and any sequence of successful
`generate()` calls — whatever the clock values and random bytes supplied —
the returned identifiers are strictly increasing under unsigned byte-wise
lexicographic ordering. -/
theorem generate_outputs_strictly_increasing (st : List Nat)
    (calls : List (Nat × Option (List Nat))) (outs : List (List Nat))
    (hwf : wf st)
    (hr : ∀ p ∈ calls, ∀ l, p.2 = some l → ∀ x ∈ l, x < 256)
    (h : runGen st calls = some outs) :
    List.Pairwise (fun a b => bytesLt a b = true) outs :=
  (runGen_increasing calls st outs hwf hr h).2.2

/-- Witness for C2: a three-call trace (fresh millisecond, then two calls in
the same millisecond) is strictly increasing. -/
theorem generate_outputs_strictly_increasing_witness :
    List.Pairwise (fun a b => bytesLt a b = true)
      [[0, 0, 0, 0, 0, 1, 112, 2, 128, 4, 5, 6, 7, 8, 9, 10],
       [0, 0, 0, 0, 0, 1, 112, 2, 128, 4, 5, 6, 7, 8, 9, 11],
       [0, 0, 0, 0, 0, 1, 112, 2, 128, 4, 5, 6, 7, 8, 9, 12]] :=
  generate_outputs_strictly_increasing
    [0, 0, 0, 0, 0, 0, 0x70, 0, 0x80, 0, 0, 0, 0, 0, 0, 0]
    [(1, some [1, 2, 3, 4, 5, 6, 7, 8, 9, 10]), (1, none), (1, none)]
    [[0, 0, 0, 0, 0, 1, 112, 2, 128, 4, 5, 6, 7, 8, 9, 10],
     [0, 0, 0, 0, 0, 1, 112, 2, 128, 4, 5, 6, 7, 8, 9, 11],
     [0, 0, 0, 0, 0, 1, 112, 2, 128, 4, 5, 6, 7, 8, 9, 12]]
    (by decide)
    (by
      intro p hp l hl x hx
      fin_cases hp
      · simp at hl
        subst hl
        simp at hx
        omega
      · simp at hl
      · simp at hl)
    (by decide)

set_option maxHeartbeats 1000000 in
/-- Claim C3: when the stored timestamp is not strictly less than the clock
and the 74-bit tail is not all-ones, `generate()` succeeds, does not touch
the timestamp bytes, does not consult the random source, keeps the version
nibble and variant bits, and increments the 74-bit counter by exactly one;
in particular the seeded future-timestamp generator of scenario A returns the
seed with only its final byte incremented to 01. -/
theorem generate_same_ms_increments (st : List Nat) (ms : Nat) (r : Option (List Nat))
    (hwf : wf st) (hvar : variant_field st = 2)
    (hlt : bytesLt (st.take 6) (nowBytes ms) = false)
    (hmax : counter74 st ≠ 2 ^ 74 - 1) :
    (∃ st', generate st ms r = GenResult.ok st'
      ∧ ts_field st' = ts_field st
      ∧ version_field st' = version_field st
      ∧ variant_field st' = 2
      ∧ counter74 st' = counter74 st + 1
      ∧ generate st ms r = generate st ms none)
    ∧ (∀ k, k ≤ 0x041846e81c98 →
        generate [0x04, 0x18, 0x46, 0xe8, 0x1c, 0x98, 0x70, 0x00, 0x80, 0, 0, 0, 0, 0, 0, 0] k r
          = GenResult.ok [0x04, 0x18, 0x46, 0xe8, 0x1c, 0x98, 0x70, 0x00, 0x80, 0, 0, 0, 0, 0, 0, 1]) := by
  constructor
  · obtain ⟨hlen, hmem⟩ := hwf
    obtain ⟨a0, a1, a2, a3, a4, a5, a6, a7, a8, a9, a10, a11, a12, a13, a14, a15, rfl⟩ :=
      list16_destruct st hlen
    have etake : List.take 6 [a0, a1, a2, a3, a4, a5, a6, a7, a8, a9, a10, a11, a12, a13, a14, a15]
        = [a0, a1, a2, a3, a4, a5] := rfl
    rw [etake] at hlt
    have hcond : ¬ (bytesLt (List.take 6 [a0, a1, a2, a3, a4, a5, a6, a7, a8, a9, a10, a11, a12, a13, a14, a15]) (nowBytes ms) = true) := by
      rw [etake]
      simp [hlt]
    obtain ⟨st', hit⟩ := incTail_not_max a0 a1 a2 a3 a4 a5 a6 a7 a8 a9 a10 a11 a12 a13 a14 a15
      (hmem _ (by simp)) (hmem _ (by simp)) (hmem _ (by simp)) (hmem _ (by simp))
      (hmem _ (by simp)) (hmem _ (by simp)) (hmem _ (by simp)) (hmem _ (by simp))
      (hmem _ (by simp)) (hmem _ (by simp)) (hmem _ (by simp)) (hmem _ (by simp))
      (hmem _ (by simp)) (hmem _ (by simp)) (hmem _ (by simp)) (hmem _ (by simp))
      hmax
    have spec := incTail_ok_spec a0 a1 a2 a3 a4 a5 a6 a7 a8 a9 a10 a11 a12 a13 a14 a15
      (hmem _ (by simp)) (hmem _ (by simp)) (hmem _ (by simp)) (hmem _ (by simp))
      (hmem _ (by simp)) (hmem _ (by simp)) (hmem _ (by simp)) (hmem _ (by simp))
      (hmem _ (by simp)) (hmem _ (by simp)) (hmem _ (by simp)) (hmem _ (by simp))
      (hmem _ (by simp)) (hmem _ (by simp)) (hmem _ (by simp)) (hmem _ (by simp))
      st' hit
    have hvar8 : a8 / 64 % 4 = 2 := by
      simpa [variant_field, List.getD] using hvar
    have hv := incTail_variant a0 a1 a2 a3 a4 a5 a6 a7 a8 a9 a10 a11 a12 a13 a14 a15 hvar8 st' hit
    refine ⟨st', ?_, ?_, spec.2.2.2.1, hv, spec.2.2.2.2, ?_⟩
    · simp only [generate]
      rw [if_neg hcond, hit]
    · simp [ts_field, spec.2.1]
    · simp only [generate]
      rw [if_neg hcond, if_neg hcond]
  · intro k hk
    have hc : ¬ (bytesLt (List.take 6 ([0x04, 0x18, 0x46, 0xe8, 0x1c, 0x98, 0x70, 0x00, 0x80, 0, 0, 0, 0, 0, 0, 0] : List Nat)) (nowBytes k) = true) := by
      have e : List.take 6 ([0x04, 0x18, 0x46, 0xe8, 0x1c, 0x98, 0x70, 0x00, 0x80, 0, 0, 0, 0, 0, 0, 0] : List Nat)
          = nowBytes 0x041846e81c98 := by decide
      rw [e, nowBytes_lt]
      omega
    simp only [generate]
    rw [if_neg hc]
    rfl

end UUIDv7

namespace UUIDv7

/-- Witness for C3 at the scenario-A seed with the clock at 0. -/
theorem generate_same_ms_increments_witness :
    generate [0x04, 0x18, 0x46, 0xe8, 0x1c, 0x98, 0x70, 0x00, 0x80, 0, 0, 0, 0, 0, 0, 0] 0 none
      = GenResult.ok [0x04, 0x18, 0x46, 0xe8, 0x1c, 0x98, 0x70, 0x00, 0x80, 0, 0, 0, 0, 0, 0, 1] :=
  (generate_same_ms_increments
      [0x04, 0x18, 0x46, 0xe8, 0x1c, 0x98, 0x70, 0x00, 0x80, 0, 0, 0, 0, 0, 0, 0] 0 none
      (by decide) (by decide) (by decide) (by decide)).2 0 (by decide)

/-- Claim C4 (counterexample): on the time-advanced path with random bytes
starting `0x12 0x34`, the code stores `rand_a = 0x134` (high nibble of byte 0
concatenated with byte 1), not the top 12 bits `0x123` of the random stream
that the claim names. -/
theorem generate_rand_a_not_top_bits :
    generate [0, 0, 0, 0, 0, 0, 0x70, 0, 0x80, 0, 0, 0, 0, 0, 0, 0] 1
        (some [0x12, 0x34, 0, 0, 0, 0, 0, 0, 0, 0])
      = GenResult.ok [0, 0, 0, 0, 0, 1, 0x71, 0x34, 0x80, 0, 0, 0, 0, 0, 0, 0]
    ∧ rand_a_field [0, 0, 0, 0, 0, 1, 0x71, 0x34, 0x80, 0, 0, 0, 0, 0, 0, 0] = 0x134
    ∧ 0x12 * 16 + 0x34 / 16 = 0x123
    ∧ (0x134 : Nat) ≠ 0x123 := by decide

set_option maxHeartbeats 1000000 in
/-- Claim C4 (amended): when the stored timestamp is strictly less than the
clock, `generate()` consumes the ten random bytes and returns timestamp =
`now_ms`, version 7, variant 0b10, `rand_a` = the top four bits of random
byte 0 concatenated with random byte 1 (the low nibble of byte 0 is
discarded), and `rand_b` = the top six bits of random byte 2 concatenated
with random bytes 3–9 (the low two bits of byte 2 are discarded); a failing
random source surfaces as the propagated error with the stored value
untouched. -/
theorem generate_time_advanced_spec (st : List Nat) (ms : Nat)
    (r0 r1 r2 r3 r4 r5 r6 r7 r8 r9 : Nat)
    (q0 : r0 < 256) (q1 : r1 < 256) (q2 : r2 < 256) (q3 : r3 < 256) (q4 : r4 < 256)
    (q5 : r5 < 256) (q6 : r6 < 256) (q7 : r7 < 256) (q8 : r8 < 256) (q9 : r9 < 256)
    (hlt : bytesLt (st.take 6) (nowBytes ms) = true) :
    generate st ms (some [r0, r1, r2, r3, r4, r5, r6, r7, r8, r9])
      = GenResult.ok (nowBytes ms
          ++ [r0 / 16 + 7 * 16, r1, r2 / 4 + 2 * 64, r3, r4, r5, r6, r7, r8, r9])
    ∧ ts_field (nowBytes ms ++ [r0 / 16 + 7 * 16, r1, r2 / 4 + 2 * 64, r3, r4, r5, r6, r7, r8, r9])
        = nowBytes ms
    ∧ version_field (nowBytes ms ++ [r0 / 16 + 7 * 16, r1, r2 / 4 + 2 * 64, r3, r4, r5, r6, r7, r8, r9]) = 7
    ∧ variant_field (nowBytes ms ++ [r0 / 16 + 7 * 16, r1, r2 / 4 + 2 * 64, r3, r4, r5, r6, r7, r8, r9]) = 2
    ∧ rand_a_field (nowBytes ms ++ [r0 / 16 + 7 * 16, r1, r2 / 4 + 2 * 64, r3, r4, r5, r6, r7, r8, r9])
        = r0 / 16 * 256 + r1
    ∧ rand_b_field (nowBytes ms ++ [r0 / 16 + 7 * 16, r1, r2 / 4 + 2 * 64, r3, r4, r5, r6, r7, r8, r9])
        = r2 / 4 * 2 ^ 56 + r3 * 2 ^ 48 + r4 * 2 ^ 40 + r5 * 2 ^ 32
          + r6 * 2 ^ 24 + r7 * 2 ^ 16 + r8 * 2 ^ 8 + r9
    ∧ generate st ms none = GenResult.randErr st := by
  have e0 : r0 / 16 % 16 = r0 / 16 := by omega
  have e2 : r2 / 4 % 64 = r2 / 4 := by omega
  refine ⟨?_, ?_, ?_, ?_, ?_, ?_, ?_⟩
  · simp only [generate]
    rw [if_pos hlt]
    simp [List.getD, e0, e2]
  · simp [ts_field, nowBytes]
  · simp [version_field, nowBytes, List.getD]
    omega
  · simp [variant_field, nowBytes, List.getD]
    omega
  · simp [rand_a_field, nowBytes, List.getD]
    omega
  · simp [rand_b_field, nowBytes, List.getD]
    omega
  · simp only [generate]
    rw [if_pos hlt]

/-- Witness for C4 (amended) at a concrete state, clock and random block. -/
theorem generate_time_advanced_spec_witness :
    generate [0, 0, 0, 0, 0, 0, 0x70, 0, 0x80, 0, 0, 0, 0, 0, 0, 0] 1
        (some [0x12, 0x34, 0, 0, 0, 0, 0, 0, 0, 0])
      = GenResult.ok (nowBytes 1
          ++ [0x12 / 16 + 7 * 16, 0x34, 0 / 4 + 2 * 64, 0, 0, 0, 0, 0, 0, 0]) :=
  (generate_time_advanced_spec [0, 0, 0, 0, 0, 0, 0x70, 0, 0x80, 0, 0, 0, 0, 0, 0, 0] 1
      0x12 0x34 0 0 0 0 0 0 0 0
      (by decide) (by decide) (by decide) (by decide) (by decide) (by decide) (by decide)
      (by decide) (by decide) (by decide) (by decide)).1

/-- Claim C1 (code-bug evidence): seeding with the maximum tail and calling
`generate()` at or before the stored timestamp throws sequence overflow, but
the stored value has been mutated (bytes 9–15 zeroed, byte 8's low six bits
cleared, byte 7 cleared); a second call then succeeds and returns a value
byte-wise smaller than the seed, violating both the state-preservation and
the second-call-fails-identically parts of the claim.  A failing random
source, by contrast, leaves the stored value unchanged. -/
theorem generate_overflow_corrupts_state :
    generate [0x04, 0x18, 0x46, 0xe8, 0x1c, 0x98, 0x7f, 0xff, 0xbf, 0xff, 0xff, 0xff, 0xff, 0xff, 0xff, 0xff]
        0 none
      = GenResult.overflowErr [0x04, 0x18, 0x46, 0xe8, 0x1c, 0x98, 0x7f, 0x00, 0x80, 0, 0, 0, 0, 0, 0, 0]
    ∧ [0x04, 0x18, 0x46, 0xe8, 0x1c, 0x98, 0x7f, 0x00, 0x80, 0, 0, 0, 0, 0, 0, 0]
        ≠ [0x04, 0x18, 0x46, 0xe8, 0x1c, 0x98, 0x7f, 0xff, 0xbf, 0xff, 0xff, 0xff, 0xff, 0xff, 0xff, 0xff]
    ∧ generate [0x04, 0x18, 0x46, 0xe8, 0x1c, 0x98, 0x7f, 0x00, 0x80, 0, 0, 0, 0, 0, 0, 0] 0 none
      = GenResult.ok [0x04, 0x18, 0x46, 0xe8, 0x1c, 0x98, 0x7f, 0x00, 0x80, 0, 0, 0, 0, 0, 0, 1]
    ∧ bytesLt [0x04, 0x18, 0x46, 0xe8, 0x1c, 0x98, 0x7f, 0x00, 0x80, 0, 0, 0, 0, 0, 0, 1]
        [0x04, 0x18, 0x46, 0xe8, 0x1c, 0x98, 0x7f, 0xff, 0xbf, 0xff, 0xff, 0xff, 0xff, 0xff, 0xff, 0xff]
        = true
    ∧ generate [0, 0, 0, 0, 0, 0, 0x70, 0, 0x80, 0, 0, 0, 0, 0, 0, 0] 5 none
      = GenResult.randErr [0, 0, 0, 0, 0, 0, 0x70, 0, 0x80, 0, 0, 0, 0, 0, 0, 0] := by decide

end UUIDv7
